import Mathlib

/-!
Shallow embedding of src/migrate-asset.js, a script that migrates Predix
asset records from an origin tenant to a destination tenant.  The HTTP
transport, JSON parsing and the console are external collaborators; they
enter the embedding as explicit inputs (error flags, scripted responses, a
parse oracle) and observable outputs (event and error-message lists).
Promise outcomes are modelled by the inductive Outcome with a third
constructor for a promise that never settles (the script produces such
promises when an exception is thrown inside a callback, or when a
rejection reaches a then-handler that has no rejection branch).  The
wall-clock readings taken by new Date() are opaque tick values supplied as
a parameter.
-/

set_option autoImplicit false

namespace MigrateAsset

/-- JS indexOf for a single character over a character list: position of the
first occurrence, counted from zero. -/
def jsIndexOfCharAux (c : Char) : List Char → Option Nat
  | [] => none
  | a :: t => if a == c then some 0 else (jsIndexOfCharAux c t).map (fun i => i + 1)

/-- JS String.prototype.indexOf for a single character: index of the first
occurrence, or minus one when the character is absent. -/
def jsIndexOfChar (s : String) (c : Char) : Int :=
  match jsIndexOfCharAux c s.toList with
  | some i => Int.ofNat i
  | none => -1

/-- JS String.prototype.substring: both arguments are clamped into the range
from zero to the length, they are swapped when the first exceeds the second,
and the characters with positions in the half-open interval are returned. -/
def jsSubstring (s : String) (a b : Int) : String :=
  let n : Int := Int.ofNat s.length
  let x : Nat := (max 0 (min a n)).toNat
  let y : Nat := (max 0 (min b n)).toNat
  ((s.toList.drop (min x y)).take (max x y - min x y)).asString

/-- Line 96 of src/migrate-asset.js: the continuation URL is computed as
link.substring(link.indexOf(openAngle) + 1, link.indexOf(closeAngle) - 1). -/
def extractNextUrl (link : String) : String :=
  jsSubstring link (jsIndexOfChar link '<' + 1) (jsIndexOfChar link '>' - 1)

/-- Modelled from the spec: the continuation URL is the substring of the
header value strictly between the first open angle bracket and the first
close angle bracket after it.  This is the documented delimiter rule the
source line 96 is supposed to implement. -/
def specContinuationUrl (link : String) : String :=
  (((link.toList.dropWhile (fun a => a != '<')).drop 1).takeWhile
    (fun a => a != '>')).asString

/-- Settlement state of a promise: resolved with a value, rejected, or never
settled at all. -/
inductive Outcome (α : Type) where
  | resolved (v : α)
  | rejected
  | hung
deriving DecidableEq

/-- The parsed token-endpoint response body, which may or may not carry an
access token field. -/
structure TokenBody where
  access_token : Option String
deriving DecidableEq

/-- Outcome of the promise returned by requestToken. -/
inductive TokenOutcome where
  | resolved (body : TokenBody)
  | rejected
  | hung
deriving DecidableEq

/-- Lines 20 to 40: the request callback receives an error flag, an optional
response (modelled by its status code) and a body.  The promise resolves
with JSON.parse of the body when there is no error, a response is present
and its status is 200, and rejects otherwise.  JSON.parse is external;
parsedBody is its result, none meaning the parse throws, which happens
inside the callback after the executor returned, so the promise never
settles. -/
def requestToken (error : Bool) (response : Option Nat)
    (parsedBody : Option TokenBody) : TokenOutcome :=
  match response with
  | none => TokenOutcome.rejected
  | some status =>
    if !error && status == 200 then
      match parsedBody with
      | some b => TokenOutcome.resolved b
      | none => TokenOutcome.hung
    else TokenOutcome.rejected

/-- Response headers as the paginator sees them: only the link header
matters. -/
structure Headers where
  link : Option String
deriving DecidableEq

/-- An HTTP response as seen by the request callback: a status code and an
optional headers object. -/
structure HttpResponse where
  statusCode : Nat
  headers : Option Headers
deriving DecidableEq

/-- The value requestAssetData resolves with: the parsed body, null when the
response body was absent or empty, and the headers object, empty when the
response or its headers were absent. -/
structure AssetResponse (β : Type) where
  body : Option β
  headers : Headers
deriving DecidableEq

/-- Lines 69 to 71: headers of the resolution value, the headers object of
the response when both are present and an empty object otherwise. -/
def headersOrEmpty (response : Option HttpResponse) : Headers :=
  match response with
  | some r =>
    match r.headers with
    | some h => h
    | none => Headers.mk none
  | none => Headers.mk none

/-- Lines 51 to 80: requestAssetData.  threw models the request invocation
itself throwing, which the surrounding try block turns into a rejection.
The callback rejects when error is truthy or a response is present whose
status code, printed in decimal, does not contain the digit 2 at index 0;
otherwise it resolves with the parsed body (null for an absent or empty
body string) and the headers.  parse models JSON.parse; when it throws
(none) the exception is raised inside the callback, outside the try block,
so the promise never settles. -/
def requestAssetData {β : Type} (parse : String → Option β) (threw error : Bool)
    (response : Option HttpResponse) (body : Option String) :
    Outcome (AssetResponse β) :=
  if threw then Outcome.rejected
  else if error || (match response with
      | some r => jsIndexOfChar (Nat.repr r.statusCode) '2' != 0
      | none => false) then Outcome.rejected
  else
    match body with
    | none => Outcome.resolved (AssetResponse.mk none (headersOrEmpty response))
    | some s =>
      if s.isEmpty then Outcome.resolved (AssetResponse.mk none (headersOrEmpty response))
      else
        match parse s with
        | some v => Outcome.resolved (AssetResponse.mk (some v) (headersOrEmpty response))
        | none => Outcome.hung

/-- Line 93: instances.concat(response.body).  The JS Array concat appends
the elements of an array argument one by one, but appends a null argument
as one element, so the accumulator holds optional records. -/
def jsConcat {τ : Type} (instances : List (Option τ)) (body : Option (List τ)) :
    List (Option τ) :=
  match body with
  | some rs => instances ++ rs.map some
  | none => instances ++ [none]

/-- Lines 90 to 107: getDomainObjectInstances, with the transport behaviour
scripted as a list of outcomes, one per call in call order; the returned
number counts the transport calls issued.  Each resolved response is
concatenated into the accumulator; when its headers carry a link the code
recurses, and the recursive promise is consumed by a then-handler with no
rejection branch, so an inner rejection (a failed fetch on any page after
the first) leaves the outer promise unsettled; when the scripted responses
run out the pending call never settles. -/
def getDomainObjectInstances {τ : Type} :
    List (Outcome (AssetResponse (List τ))) → List (Option τ) →
      Outcome (List (Option τ)) × Nat
  | [], _ => (Outcome.hung, 0)
  | Outcome.rejected :: _, _ => (Outcome.rejected, 1)
  | Outcome.hung :: _, _ => (Outcome.hung, 1)
  | Outcome.resolved resp :: rest, instances =>
    match resp.headers.link with
    | some _ =>
      match getDomainObjectInstances rest (jsConcat instances resp.body) with
      | (Outcome.resolved full, n) => (Outcome.resolved full, n + 1)
      | (_, n) => (Outcome.hung, n + 1)
    | none => (Outcome.resolved (jsConcat instances resp.body), 1)

/-- A domain object instance: an opaque payload plus the one field the
script writes, the migration date. -/
structure Record (ρ : Type) where
  data : ρ
  migrationDate : Option Nat
deriving DecidableEq

/-- Lines 155 to 156: item.migrationDate = new Date(); return item. -/
def setMigrationDate {ρ : Type} (now : Nat) (item : Record ρ) : Record ρ :=
  { item with migrationDate := some now }

/-- Line 154: the map over one chunk applying the stamping callback.  A null
element of the accumulator makes the callback throw (it assigns a field of
null), modelled by returning none for the whole chunk. -/
def stampChunk {ρ : Type} (now : Nat) :
    List (Option (Record ρ)) → Option (List (Record ρ))
  | [] => some []
  | none :: _ => none
  | some item :: rest =>
    (stampChunk now rest).map (fun tail => setMigrationDate now item :: tail)

/-- Lines 151 to 158: the loop pushing one POST per chunk.  The posted
payloads are collected in loop order; a throw inside the stamping map
aborts the loop, so chunks after a throwing one are not posted. -/
def buildChunkPosts {ρ : Type} (now : Nat) :
    List (List (Option (Record ρ))) → List (List (Record ρ))
  | [] => []
  | chunk :: rest =>
    match stampChunk now chunk with
    | some stamped => stamped :: buildChunkPosts now rest
    | none => []

/-- Fuel-indexed version of the lodash chunk helper; the fuel only needs to
dominate the length of the list. -/
def lodashChunkAux {α : Type} (size : Nat) : Nat → List α → List (List α)
  | 0, _ => []
  | _ + 1, [] => []
  | fuel + 1, a :: t => (a :: t).take size :: lodashChunkAux size fuel ((a :: t).drop size)

/-- The lodash chunk function used on line 151: splits a list into
contiguous groups of the given size in source order, the last group
possibly shorter; a zero size yields no groups. -/
def lodashChunk {α : Type} (size : Nat) (l : List α) : List (List α) :=
  if size = 0 then [] else lodashChunkAux size l.length l

/-- Line 9: the fixed page size and chunk size of the script. -/
def queryLimit : Nat := 1000

/-- Per-collection events observable at the transport: one pageFetch per
paginator call, then one chunkPost per posted chunk with its payload. -/
inductive Event (ρ : Type) where
  | pageFetch
  | chunkPost (records : List (Record ρ))
deriving DecidableEq

/-- Lines 146 to 164: one collection is paginated and, only when the
pagination promise resolves, chunked, stamped and posted.  postOk scripts
the success of the POST for each chunk index; when every POST was issued
and some chunk rejects, the Promise.all handler prints the posting error
message.  When the pagination promise rejects or never settles, the
then-handler on line 146 has no rejection branch, so nothing further
happens and nothing is printed for that collection. -/
def processCollection {ρ : Type} (now : Nat) (postOk : Nat → Bool)
    (trace : List (Outcome (AssetResponse (List (Record ρ))))) :
    List (Event ρ) × List String :=
  match getDomainObjectInstances trace [] with
  | (Outcome.resolved instances, calls) =>
    let chunks := lodashChunk queryLimit instances
    let posts := buildChunkPosts now chunks
    (List.replicate calls Event.pageFetch ++ posts.map Event.chunkPost,
      if posts.length = chunks.length then
        if (List.range posts.length).all postOk then []
        else ["There was an error posting the domain object instances"]
      else [])
  | (Outcome.rejected, calls) => (List.replicate calls Event.pageFetch, [])
  | (Outcome.hung, calls) => (List.replicate calls Event.pageFetch, [])

/-- A domain object descriptor from the listing response: collection name
and declared instance count. -/
structure DomainObject where
  collection : String
  count : Nat
deriving DecidableEq

/-- Whether a token promise resolved. -/
def isResolvedTok : TokenOutcome → Bool
  | TokenOutcome.resolved _ => true
  | _ => false

/-- Run-level events: the collection-listing call and the per-collection
transport events tagged with the index of their collection. -/
inductive RunEvent (ρ : Type) where
  | listCollections
  | collEvent (idx : Nat) (e : Event ρ)
deriving DecidableEq

/-- Lines 112 to 172: the whole run.  The two token outcomes come first;
the Promise.all handler proceeds to the listing only when both resolved,
prints the credentials message when at least one rejected, and does
nothing when neither rejected but one never settles.  On a resolved
listing every discovered collection is processed on its own scripted trace
and chunk results; the concurrent per-collection event streams are
linearised in collection order.  The string list collects the console
error messages. -/
def migrate {ρ : Type} (o d : TokenOutcome) (listing : Outcome (List DomainObject))
    (traces : Nat → List (Outcome (AssetResponse (List (Record ρ)))))
    (postOk : Nat → Nat → Bool) (now : Nat) :
    List (RunEvent ρ) × List String :=
  let tokenErrors :=
    (if o = TokenOutcome.rejected then ["Error loading the origin token."] else []) ++
    (if d = TokenOutcome.rejected then ["Error loading the destination token."] else [])
  if isResolvedTok o && isResolvedTok d then
    match listing with
    | Outcome.resolved domainObjects =>
      (RunEvent.listCollections ::
        ((List.range domainObjects.length).map
          (fun k => ((processCollection now (postOk k) (traces k)).1).map
            (RunEvent.collEvent k))).flatten,
        tokenErrors ++
          ((List.range domainObjects.length).map
            (fun k => (processCollection now (postOk k) (traces k)).2)).flatten)
    | Outcome.rejected =>
      ([RunEvent.listCollections],
        tokenErrors ++ ["There was an error listing asset domain objects"])
    | Outcome.hung => ([RunEvent.listCollections], tokenErrors)
  else if o = TokenOutcome.rejected ∨ d = TokenOutcome.rejected then
    ([], tokenErrors ++ ["Please check your UAA credentials"])
  else ([], tokenErrors)

/-- The events of the collection with the given index, in order. -/
def collEvents {ρ : Type} (evs : List (RunEvent ρ)) (j : Nat) : List (Event ρ) :=
  evs.filterMap (fun e => match e with
    | RunEvent.collEvent k e2 => if k = j then some e2 else none
    | RunEvent.listCollections => none)

theorem jsIndexOfChar_eq_zero_iff (s : String) (c : Char) :
    jsIndexOfChar s c = 0 ↔ s.toList.head? = some c := by
  unfold jsIndexOfChar
  cases hl : s.toList with
  | nil => simp [jsIndexOfCharAux]
  | cons a t =>
    by_cases hac : a = c
    · subst hac
      simp [jsIndexOfCharAux]
    · simp only [jsIndexOfCharAux, beq_iff_eq, hac, if_false, List.head?]
      cases jsIndexOfCharAux c t with
      | none => simp [hac]
      | some i =>
        simp [hac]
        omega

/-- Claim C1 (code bug): on the continuation header value with the text
http with two slashes and the letter n between angle brackets, line 96
yields the URL with its final character dropped, because the JS substring
end index is already exclusive and the extra minus one truncates it, while
the specified delimiter rule (substring strictly between the first open
bracket and the first close bracket) keeps the full URL. -/
theorem extractNextUrl_truncates :
    extractNextUrl "<http://n>" = "http://" ∧
    specContinuationUrl "<http://n>" = "http://n" := by
  constructor <;> rfl

/-- Claim C2 (amended): requestToken resolves with the parsed body exactly
when there is no transport error, a response is present with status 200 and
the body parses; it rejects exactly on a transport error, an absent
response or a non-200 status; and with status 200 and an unparseable body
it never settles.  No check of the parsed body for an access token is
performed anywhere. -/
theorem requestToken_characterization (error : Bool) (response : Option Nat)
    (parsedBody : Option TokenBody) :
    (∀ b, requestToken error response parsedBody = TokenOutcome.resolved b ↔
      (error = false ∧ response = some 200 ∧ parsedBody = some b))
    ∧ (requestToken error response parsedBody = TokenOutcome.hung ↔
      (error = false ∧ response = some 200 ∧ parsedBody = none))
    ∧ (requestToken error response parsedBody = TokenOutcome.rejected ↔
      (error = true ∨ response = none ∨ ∃ s, response = some s ∧ s ≠ 200)) := by
  cases response with
  | none => cases error <;> simp [requestToken]
  | some s =>
    by_cases hs : s = 200
    · subst hs
      cases error <;> cases parsedBody <;> simp [requestToken]
    · cases error <;> cases parsedBody <;> simp [requestToken, hs]

/-- Witness for the amended claim C2: the characterization applied at a
concrete successful exchange. -/
theorem requestToken_characterization_witness :
    requestToken false (some 200) (some (TokenBody.mk (some "tok")))
      = TokenOutcome.resolved (TokenBody.mk (some "tok")) :=
  ((requestToken_characterization false (some 200)
      (some (TokenBody.mk (some "tok")))).1 (TokenBody.mk (some "tok"))).mpr
    ⟨rfl, rfl, rfl⟩

/-- Counterexample to claim C2 as stated: with no transport error, status
200 and a body that parses to an object holding no access token at all,
requestToken resolves anyway, while the claim requires resolution only when
the body contains an access token. -/
theorem requestToken_resolves_without_access_token :
    requestToken false (some 200) (some (TokenBody.mk none))
      = TokenOutcome.resolved (TokenBody.mk none)
    ∧ (TokenBody.mk none).access_token = none := by
  constructor <;> rfl

/-- Claim C3 (amended): requestAssetData rejects exactly when the request
invocation threw, the callback reported an error, or a response is present
whose decimal status string does not have the digit 2 at index 0; it
resolves exactly when none of these hold and the body, when present and
nonempty, parses.  In particular an error-free callback with an absent
response resolves with a null body instead of yielding TransportError. -/
theorem requestAssetData_characterization (β : Type) (parse : String → Option β)
    (threw error : Bool) (response : Option HttpResponse) (body : Option String) :
    ((requestAssetData parse threw error response body = Outcome.rejected) ↔
      (threw = true ∨ error = true ∨
        ∃ r, response = some r ∧ (Nat.repr r.statusCode).toList.head? ≠ some '2'))
    ∧ ((∃ v, requestAssetData parse threw error response body = Outcome.resolved v) ↔
      (threw = false ∧ error = false ∧
        (∀ r, response = some r → (Nat.repr r.statusCode).toList.head? = some '2') ∧
        (∀ s, body = some s → s.isEmpty = false → parse s ≠ none))) := by
  cases threw with
  | true => simp [requestAssetData]
  | false =>
    cases error with
    | true => simp [requestAssetData]
    | false =>
      cases response with
      | none =>
        simp only [requestAssetData, Bool.false_or, if_false, Bool.if_false_left]
        cases body with
        | none => simp
        | some s =>
          by_cases hse : s.isEmpty
          · simp [hse]
          · cases hp : parse s <;> simp [hse, hp]
      | some r =>
        by_cases h2 : (Nat.repr r.statusCode).data.head? = some '2'
        · have hz : jsIndexOfChar (Nat.repr r.statusCode) '2' = 0 :=
            (jsIndexOfChar_eq_zero_iff _ _).mpr h2
          simp only [requestAssetData, hz, if_false]
          cases body with
          | none => simp [h2]
          | some s =>
            by_cases hse : s.isEmpty
            · simp [hse, h2]
            · cases hp : parse s <;> simp [hse, hp, h2]
        · have hz : jsIndexOfChar (Nat.repr r.statusCode) '2' ≠ 0 :=
            fun h => h2 ((jsIndexOfChar_eq_zero_iff _ _).mp h)
          simp [requestAssetData, hz, h2]

/-- Witness for the amended claim C3: the characterization applied at a
transport error yields the rejection. -/
theorem requestAssetData_characterization_witness :
    requestAssetData (β := Nat) (fun _ => none) false true none none
      = Outcome.rejected :=
  ((requestAssetData_characterization Nat (fun _ => none) false true none none).1).mpr
    (Or.inr (Or.inl rfl))

/-- Counterexample to claim C3 as stated: when the callback reports neither
an error nor a response (both absent), the code resolves with a null body
and empty headers, while the claim requires every absent-response outcome
to yield TransportError. -/
theorem requestAssetData_absent_response_resolves :
    requestAssetData (β := Nat) (fun _ => none) false false none none
      = Outcome.resolved (AssetResponse.mk none (Headers.mk none)) := by
  rfl

theorem getDomainObjectInstances_pages_aux {τ : Type} (links : List String) :
    ∀ (bodies : List (List τ)) (acc : List (Option τ)),
      links.length + 1 = bodies.length →
      getDomainObjectInstances
        (List.zipWith (fun (b : List τ) (l : Option String) =>
            Outcome.resolved (AssetResponse.mk (some b) (Headers.mk l)))
          bodies (links.map some ++ [none])) acc
        = (Outcome.resolved (acc ++ bodies.flatten.map some), bodies.length) := by
  induction links with
  | nil =>
    intro bodies acc h
    match bodies with
    | [] => simp at h
    | b :: b2 :: bs => simp at h
    | [b] =>
      simp [getDomainObjectInstances, jsConcat]
  | cons l ls ih =>
    intro bodies acc h
    match bodies with
    | [] => simp at h
    | b :: bs =>
      have h2 : ls.length + 1 = bs.length := by
        simpa using h
      simp only [List.map_cons, List.cons_append, List.zipWith_cons_cons,
        getDomainObjectInstances, jsConcat, List.append_eq]
      rw [ih bs (acc ++ b.map some) h2]
      simp [List.append_assoc]

/-- Claim C4: for a scripted run of N pages, the first N minus one carrying
a continuation link in their headers and the last carrying none, the
paginator resolves with the concatenation of all page bodies in page order
(each record wrapped by the concat embedding) and issues exactly N
transport calls. -/
theorem getDomainObjectInstances_all_pages (τ : Type) (bodies : List (List τ))
    (links : List String) (h : links.length + 1 = bodies.length) :
    getDomainObjectInstances
      (List.zipWith (fun (b : List τ) (l : Option String) =>
          Outcome.resolved (AssetResponse.mk (some b) (Headers.mk l)))
        bodies (links.map some ++ [none])) []
      = (Outcome.resolved (bodies.flatten.map some), bodies.length) := by
  have := getDomainObjectInstances_pages_aux links bodies [] h
  simpa using this

/-- Witness for claim C4: a concrete two-page run, the first page with one
record and a link, the second with two records and no link. -/
theorem getDomainObjectInstances_all_pages_witness :
    ((["u"] : List String).length + 1 = ([[1], [2, 3]] : List (List Nat)).length)
    ∧ getDomainObjectInstances
        (List.zipWith (fun (b : List Nat) (l : Option String) =>
            Outcome.resolved (AssetResponse.mk (some b) (Headers.mk l)))
          [[1], [2, 3]] ((["u"] : List String).map some ++ [none])) []
        = (Outcome.resolved (([[1], [2, 3]] : List (List Nat)).flatten.map some),
            ([[1], [2, 3]] : List (List Nat)).length) :=
  ⟨rfl, getDomainObjectInstances_all_pages Nat [[1], [2, 3]] ["u"] rfl⟩

/-- Claim C10: a successful page fetch with an absent body resolves the
transport with a null body, and the paginator concatenates that null as a
single element of the accumulated sequence, so the sequence the paginator
resolves with can contain null entries. -/
theorem null_body_single_element (τ : Type) (h : Headers)
    (acc : List (Option τ)) (parse : String → Option (List τ)) :
    requestAssetData parse false false
        (some (HttpResponse.mk 204 (some h))) none
      = Outcome.resolved (AssetResponse.mk none h)
    ∧ getDomainObjectInstances
        [Outcome.resolved (AssetResponse.mk (none : Option (List τ)) (Headers.mk none))]
        acc
      = (Outcome.resolved (acc ++ [none]), 1) := by
  constructor
  · have h204 : jsIndexOfChar (Nat.repr 204) '2' = 0 := by decide
    simp [requestAssetData, headersOrEmpty, h204]
  · rfl

theorem lodashChunkAux_flatten {α : Type} (size : Nat) (hs : 0 < size) :
    ∀ (fuel : Nat) (l : List α), l.length ≤ fuel →
      (lodashChunkAux size fuel l).flatten = l := by
  intro fuel
  induction fuel with
  | zero =>
    intro l hl
    have h0 : l = [] := List.eq_nil_of_length_eq_zero (Nat.le_zero.mp hl)
    subst h0
    rfl
  | succ fuel ih =>
    intro l hl
    cases l with
    | nil => rfl
    | cons a t =>
      simp only [lodashChunkAux, List.flatten_cons]
      rw [ih ((a :: t).drop size) ?_]
      · exact List.take_append_drop size (a :: t)
      · simp only [List.length_drop, List.length_cons]
        simp only [List.length_cons] at hl
        omega

theorem ceil_div_step (size L : Nat) (hs : 0 < size) (hL : 0 < L) :
    (L - size + size - 1) / size + 1 = (L + size - 1) / size := by
  rcases Nat.le_total L size with hle | hge
  · have e1 : L - size + size - 1 = size - 1 := by omega
    have e2 : L + size - 1 = (L - 1) + size := by omega
    rw [e1, e2, Nat.add_div_right _ hs,
      Nat.div_eq_of_lt (show size - 1 < size by omega),
      Nat.div_eq_of_lt (show L - 1 < size by omega)]
  · have e1 : L - size + size - 1 = L - 1 := by omega
    have e2 : L + size - 1 = (L - 1) + size := by omega
    rw [e1, e2, Nat.add_div_right _ hs]

theorem lodashChunkAux_length {α : Type} (size : Nat) (hs : 0 < size) :
    ∀ (fuel : Nat) (l : List α), l.length ≤ fuel →
      (lodashChunkAux size fuel l).length = (l.length + size - 1) / size := by
  intro fuel
  induction fuel with
  | zero =>
    intro l hl
    have h0 : l = [] := List.eq_nil_of_length_eq_zero (Nat.le_zero.mp hl)
    subst h0
    have h1 : (size - 1) / size = 0 := Nat.div_eq_of_lt (by omega)
    simp [lodashChunkAux, h1]
  | succ fuel ih =>
    intro l hl
    cases l with
    | nil =>
      have h1 : (size - 1) / size = 0 := Nat.div_eq_of_lt (by omega)
      simp [lodashChunkAux, h1]
    | cons a t =>
      simp only [lodashChunkAux, List.length_cons]
      rw [ih ((a :: t).drop size) ?_]
      · simp only [List.length_drop, List.length_cons]
        exact ceil_div_step size (t.length + 1) hs (by omega)
      · simp only [List.length_drop, List.length_cons]
        simp only [List.length_cons] at hl
        omega

theorem lodashChunkAux_mem_length {α : Type} (size : Nat) :
    ∀ (fuel : Nat) (l : List α) (c : List α),
      c ∈ lodashChunkAux size fuel l → c.length ≤ size := by
  intro fuel
  induction fuel with
  | zero =>
    intro l c hc
    simp [lodashChunkAux] at hc
  | succ fuel ih =>
    intro l c hc
    cases l with
    | nil => simp [lodashChunkAux] at hc
    | cons a t =>
      simp only [lodashChunkAux, List.mem_cons] at hc
      rcases hc with rfl | hc
      · exact List.length_take_le size (a :: t)
      · exact ih _ _ hc

theorem lodashChunkAux_map {α γ : Type} (size : Nat) (f : α → γ) :
    ∀ (fuel : Nat) (l : List α),
      lodashChunkAux size fuel (l.map f)
        = (lodashChunkAux size fuel l).map (List.map f) := by
  intro fuel
  induction fuel with
  | zero => intro l; rfl
  | succ fuel ih =>
    intro l
    cases l with
    | nil => rfl
    | cons a t =>
      simp only [List.map_cons, lodashChunkAux, ← List.map_cons]
      rw [← List.map_take, ← List.map_drop, ih]
      simp

theorem stampChunk_map_some {ρ : Type} (now : Nat) (c : List (Record ρ)) :
    stampChunk now (c.map some) = some (c.map (setMigrationDate now)) := by
  induction c with
  | nil => rfl
  | cons r t ih => simp [stampChunk, ih]

theorem buildChunkPosts_map_some {ρ : Type} (now : Nat)
    (chunks : List (List (Record ρ))) :
    buildChunkPosts now (chunks.map (List.map some))
      = chunks.map (List.map (setMigrationDate now)) := by
  induction chunks with
  | nil => rfl
  | cons c t ih => simp [buildChunkPosts, stampChunk_map_some, ih]

/-- Claim C7: for every record list of length L and chunk size C greater
than zero, the upload loop posts exactly the ceiling of L over C chunks,
each posted chunk holds at most C records, and the posted chunks flatten to
the input records in source order, each with the migration date field
set. -/
theorem upload_chunking_spec (ρ : Type) (C now : Nat) (rs : List (Record ρ))
    (hC : 0 < C) :
    (buildChunkPosts now (lodashChunk C (rs.map some))).length = (rs.length + C - 1) / C
    ∧ (∀ chunk ∈ buildChunkPosts now (lodashChunk C (rs.map some)), chunk.length ≤ C)
    ∧ (buildChunkPosts now (lodashChunk C (rs.map some))).flatten
        = rs.map (setMigrationDate now) := by
  have hC0 : C ≠ 0 := Nat.pos_iff_ne_zero.mp hC
  have hposts : buildChunkPosts now (lodashChunk C (rs.map some))
      = (lodashChunkAux C rs.length rs).map (List.map (setMigrationDate now)) := by
    rw [lodashChunk, if_neg hC0, List.length_map, lodashChunkAux_map]
    exact buildChunkPosts_map_some now _
  refine ⟨?_, ?_, ?_⟩
  · rw [hposts, List.length_map]
    exact lodashChunkAux_length C hC rs.length rs (Nat.le_refl _)
  · intro chunk hc
    rw [hposts] at hc
    rcases List.mem_map.mp hc with ⟨c, hc1, rfl⟩
    rw [List.length_map]
    exact lodashChunkAux_mem_length C rs.length rs c hc1
  · rw [hposts, ← List.map_flatten,
      lodashChunkAux_flatten C hC rs.length rs (Nat.le_refl _)]

/-- Witness for claim C7: three records with chunk size two yield two
posted chunks. -/
theorem upload_chunking_spec_witness :
    0 < 2
    ∧ (buildChunkPosts 9 (lodashChunk 2
        (([Record.mk 0 none, Record.mk 1 none, Record.mk 2 none] :
          List (Record Nat)).map some))).length
      = (([Record.mk 0 none, Record.mk 1 none, Record.mk 2 none] :
          List (Record Nat)).length + 2 - 1) / 2 :=
  ⟨by decide,
    (upload_chunking_spec Nat 2 9
      [Record.mk 0 none, Record.mk 1 none, Record.mk 2 none] (by decide)).1⟩

/-- Claim C9: the stamping step writes exactly the migration date field and
returns the opaque payload unchanged; the embedding is parametric in the
payload type, so no other part of the record is inspected. -/
theorem setMigrationDate_frame (ρ : Type) (now : Nat) (r : Record ρ) :
    (setMigrationDate now r).data = r.data
    ∧ (setMigrationDate now r).migrationDate = some now := by
  constructor <;> rfl

theorem get?_replicate_of_lt {α : Type} (a : α) :
    ∀ (n i : Nat), i < n → (List.replicate n a).get? i = some a := by
  intro n
  induction n with
  | zero => intro i h; exact absurd h (Nat.not_lt_zero i)
  | succ n ih =>
    intro i h
    cases i with
    | zero => rfl
    | succ i => exact ih i (by omega)

/-- Claim C8: within one collection, every chunk POST event comes strictly
after every page fetch event; the upload phase starts only when the
pagination has resolved with no continuation link left. -/
theorem processCollection_reads_before_writes (ρ : Type) (now : Nat)
    (postOk : Nat → Bool)
    (trace : List (Outcome (AssetResponse (List (Record ρ)))))
    (i j : Nat) (c : List (Record ρ))
    (hi : ((processCollection now postOk trace).1).get? i
      = some (Event.chunkPost c))
    (hj : ((processCollection now postOk trace).1).get? j
      = some Event.pageFetch) :
    j < i := by
  unfold processCollection at hi hj
  rcases h : getDomainObjectInstances trace ([] : List (Option (Record ρ)))
    with ⟨res, calls⟩
  rw [h] at hi hj
  cases res with
  | resolved instances =>
    simp only at hi hj
    have hjlt : j < calls := by
      by_contra hge
      push_neg at hge
      rw [List.get?_eq_getElem?,
        List.getElem?_append_right (by simpa using hge),
        ← List.get?_eq_getElem?] at hj
      have hmem := List.get?_mem hj
      rcases List.mem_map.mp hmem with ⟨p, -, hp⟩
      exact Event.noConfusion hp
    have hige : calls ≤ i := by
      by_contra hlt
      push_neg at hlt
      rw [List.get?_eq_getElem?,
        List.getElem?_append_left (by simpa using hlt),
        ← List.get?_eq_getElem?,
        get?_replicate_of_lt Event.pageFetch calls i hlt] at hi
      simp at hi
    omega
  | rejected =>
    have hmem := List.get?_mem hi
    rcases List.mem_replicate.mp hmem with ⟨-, heq⟩
    exact Event.noConfusion heq
  | hung =>
    have hmem := List.get?_mem hi
    rcases List.mem_replicate.mp hmem with ⟨-, heq⟩
    exact Event.noConfusion heq

/-- Witness for claim C8: a one-page collection with one record; the fetch
event has index zero and the chunk POST event index one. -/
theorem processCollection_reads_before_writes_witness :
    (((processCollection 9 (fun _ => true)
        [Outcome.resolved (AssetResponse.mk (some [Record.mk (5 : Nat) none])
          (Headers.mk none))]).1).get? 1
      = some (Event.chunkPost [Record.mk (5 : Nat) (some 9)]))
    ∧ 0 < 1 :=
  ⟨by decide,
    processCollection_reads_before_writes Nat 9 (fun _ => true)
      [Outcome.resolved (AssetResponse.mk (some [Record.mk (5 : Nat) none])
        (Headers.mk none))] 1 0 [Record.mk (5 : Nat) (some 9)]
      (by decide) (by decide)⟩

theorem collEvents_append {ρ : Type} (l1 l2 : List (RunEvent ρ)) (j : Nat) :
    collEvents (l1 ++ l2) j = collEvents l1 j ++ collEvents l2 j := by
  simp [collEvents, List.filterMap_append]

theorem collEvents_tagged {ρ : Type} (es : List (Event ρ)) (k j : Nat) :
    collEvents (es.map (RunEvent.collEvent k)) j = if k = j then es else [] := by
  induction es with
  | nil => by_cases hk : k = j <;> simp [collEvents, hk]
  | cons e t ih =>
    by_cases hk : k = j
    · subst hk
      simp only [collEvents, List.map_cons, List.filterMap_cons, if_pos rfl] at ih ⊢
      simp [ih]
    · simp only [collEvents, List.map_cons, List.filterMap_cons, if_neg hk] at ih ⊢
      simp [ih, hk]

theorem collEvents_tagged_flatten {ρ : Type} (f : Nat → List (Event ρ))
    (ks : List Nat) (j : Nat) :
    collEvents ((ks.map (fun k => (f k).map (RunEvent.collEvent k))).flatten) j
      = ((ks.filter (fun k => k == j)).map f).flatten := by
  induction ks with
  | nil => rfl
  | cons k ks ih =>
    simp only [List.map_cons, List.flatten_cons]
    rw [collEvents_append, collEvents_tagged, ih]
    by_cases hk : k = j
    · subst hk
      simp [List.filter_cons]
    · simp [List.filter_cons, hk]

theorem range_filter_eq (n j : Nat) (hj : j < n) :
    (List.range n).filter (fun k => k == j) = [j] := by
  induction n with
  | zero => exact absurd hj (Nat.not_lt_zero j)
  | succ n ih =>
    rw [List.range_succ, List.filter_append]
    rcases Nat.lt_succ_iff_lt_or_eq.mp hj with h | h
    · rw [ih h]
      have hne : (n == j) = false := by
        simp only [beq_eq_false_iff_ne, ne_eq]
        omega
      simp [List.filter_cons, hne]
    · subst h
      have hnil : (List.range j).filter (fun k => k == j) = [] := by
        rw [List.filter_eq_nil_iff]
        intro a ha
        have := List.mem_range.mp ha
        simp only [beq_iff_eq]
        omega
      simp [hnil, List.filter_cons]

theorem collEvents_cons_list {ρ : Type} (evs : List (RunEvent ρ)) (j : Nat) :
    collEvents (RunEvent.listCollections :: evs) j = collEvents evs j := by
  simp [collEvents, List.filterMap_cons]

theorem collEvents_migrate {ρ : Type} (o d : TokenOutcome)
    (dObjs : List DomainObject)
    (traces : Nat → List (Outcome (AssetResponse (List (Record ρ)))))
    (postOk : Nat → Nat → Bool) (now : Nat) (j : Nat)
    (ho : isResolvedTok o = true) (hd : isResolvedTok d = true)
    (hj : j < dObjs.length) :
    collEvents (migrate o d (Outcome.resolved dObjs) traces postOk now).1 j
      = (processCollection now (postOk j) (traces j)).1 := by
  simp only [migrate, ho, hd, Bool.and_self, if_true]
  rw [collEvents_cons_list, collEvents_tagged_flatten, range_filter_eq _ _ hj]
  simp

theorem processCollection_no_resolution {ρ : Type} (now : Nat)
    (postOk : Nat → Bool)
    (trace : List (Outcome (AssetResponse (List (Record ρ)))))
    (hfail : ∀ v, (getDomainObjectInstances trace ([] : List (Option (Record ρ)))).1
      ≠ Outcome.resolved v) :
    processCollection now postOk trace
      = (List.replicate
          (getDomainObjectInstances trace ([] : List (Option (Record ρ)))).2
          Event.pageFetch, []) := by
  unfold processCollection
  rcases hg : getDomainObjectInstances trace ([] : List (Option (Record ρ)))
    with ⟨res, calls⟩
  cases res with
  | resolved v => exact absurd (by rw [hg]) (hfail v)
  | rejected => rfl
  | hung => rfl

/-- Claim C5 (amended): when the pagination of one collection fails, only
that collection is aborted: no chunk POST is issued for it and it prints no
message at all (the rejection is unhandled, so in particular no
human-readable error report is produced), while every other collection is
processed exactly as it would be on its own trace and chunk results. -/
theorem migrate_pagination_isolation (ρ : Type) (o d : TokenOutcome)
    (dObjs : List DomainObject)
    (traces : Nat → List (Outcome (AssetResponse (List (Record ρ)))))
    (postOk : Nat → Nat → Bool) (now : Nat) (i : Nat)
    (ho : isResolvedTok o = true) (hd : isResolvedTok d = true)
    (hi : i < dObjs.length)
    (hfail : ∀ v, (getDomainObjectInstances (traces i)
        ([] : List (Option (Record ρ)))).1 ≠ Outcome.resolved v) :
    (∀ c, Event.chunkPost c ∉
      collEvents (migrate o d (Outcome.resolved dObjs) traces postOk now).1 i)
    ∧ (processCollection now (postOk i) (traces i)).2 = []
    ∧ (∀ j, j < dObjs.length →
        collEvents (migrate o d (Outcome.resolved dObjs) traces postOk now).1 j
          = (processCollection now (postOk j) (traces j)).1) := by
  have hproc := processCollection_no_resolution now (postOk i) (traces i) hfail
  refine ⟨?_, ?_, fun j hj => collEvents_migrate o d dObjs traces postOk now j ho hd hj⟩
  · intro c hc
    rw [collEvents_migrate o d dObjs traces postOk now i ho hd hi, hproc] at hc
    rcases List.mem_replicate.mp hc with ⟨-, heq⟩
    exact Event.noConfusion heq
  · rw [hproc]

/-- Witness for claim C5: two collections, the first with a failing first
page, the second with one good page; the failing collection prints
nothing. -/
theorem migrate_pagination_isolation_witness :
    0 < ([DomainObject.mk "a" 1, DomainObject.mk "b" 1] : List DomainObject).length
    ∧ (processCollection 3 ((fun (_ : Nat) (_ : Nat) => true) 0)
        ((fun k => if k = 0 then
            [(Outcome.rejected : Outcome (AssetResponse (List (Record Nat))))]
          else [Outcome.resolved (AssetResponse.mk (some [Record.mk 7 none])
            (Headers.mk none))]) 0)).2 = [] :=
  ⟨by decide,
    (migrate_pagination_isolation Nat
      (TokenOutcome.resolved (TokenBody.mk (some "t")))
      (TokenOutcome.resolved (TokenBody.mk (some "u")))
      [DomainObject.mk "a" 1, DomainObject.mk "b" 1]
      (fun k => if k = 0 then
          [(Outcome.rejected : Outcome (AssetResponse (List (Record Nat))))]
        else [Outcome.resolved (AssetResponse.mk (some [Record.mk 7 none])
          (Headers.mk none))])
      (fun _ _ => true) 3 0 rfl rfl (by decide)
      (fun v h => Outcome.noConfusion h)).2.1⟩

/-- Counterexample to claim C5 as stated: with both tokens good, one
collection discovered and its first page fetch rejecting, the whole run
prints no error message at all, while the claim requires the pagination
failure to be reported with a human-readable message. -/
theorem pagination_failure_unreported :
    (migrate (ρ := Nat)
      (TokenOutcome.resolved (TokenBody.mk (some "t")))
      (TokenOutcome.resolved (TokenBody.mk (some "u")))
      (Outcome.resolved [DomainObject.mk "assets" 5])
      (fun _ => [Outcome.rejected]) (fun _ _ => true) 0).2 = [] := by
  decide

/-- Claim C6: transport events exist only when both token promises
resolved, and whenever either token promise rejected the run issues no
collection-listing or record call and prints the credentials error
message. -/
theorem migrate_token_gate (ρ : Type) (o d : TokenOutcome)
    (listing : Outcome (List DomainObject))
    (traces : Nat → List (Outcome (AssetResponse (List (Record ρ)))))
    (postOk : Nat → Nat → Bool) (now : Nat) :
    ((migrate o d listing traces postOk now).1 ≠ [] →
      isResolvedTok o = true ∧ isResolvedTok d = true)
    ∧ ((o = TokenOutcome.rejected ∨ d = TokenOutcome.rejected) →
      (migrate o d listing traces postOk now).1 = []
      ∧ "Please check your UAA credentials" ∈
          (migrate o d listing traces postOk now).2) := by
  cases hcond : (isResolvedTok o && isResolvedTok d) with
  | true =>
    simp only [Bool.and_eq_true] at hcond
    constructor
    · intro _
      exact hcond
    · intro hrej
      rcases hcond with ⟨h1, h2⟩
      rcases hrej with h | h
      · rw [h] at h1
        simp [isResolvedTok] at h1
      · rw [h] at h2
        simp [isResolvedTok] at h2
  | false =>
    by_cases hrej : o = TokenOutcome.rejected ∨ d = TokenOutcome.rejected
    · constructor
      · intro hne
        exfalso
        apply hne
        simp [migrate, hcond, hrej]
      · intro _
        constructor
        · simp [migrate, hcond, hrej]
        · simp [migrate, hcond, hrej]
    · constructor
      · intro hne
        exfalso
        apply hne
        simp [migrate, hcond, hrej]
      · intro h
        exact absurd h hrej

/-- Witness for claim C6: a run with a rejected origin token prints the
credentials message and issues no calls, and a run with two good tokens
and an empty listing does issue its listing call. -/
theorem migrate_token_gate_witness :
    ((migrate (ρ := Nat) TokenOutcome.rejected
        (TokenOutcome.resolved (TokenBody.mk (some "u")))
        (Outcome.resolved []) (fun _ => []) (fun _ _ => true) 0).1 = []
      ∧ "Please check your UAA credentials" ∈
        (migrate (ρ := Nat) TokenOutcome.rejected
          (TokenOutcome.resolved (TokenBody.mk (some "u")))
          (Outcome.resolved []) (fun _ => []) (fun _ _ => true) 0).2)
    ∧ (isResolvedTok (TokenOutcome.resolved (TokenBody.mk (some "t"))) = true
      ∧ isResolvedTok (TokenOutcome.resolved (TokenBody.mk (some "u"))) = true) :=
  ⟨(migrate_token_gate Nat TokenOutcome.rejected
      (TokenOutcome.resolved (TokenBody.mk (some "u")))
      (Outcome.resolved []) (fun _ => []) (fun _ _ => true) 0).2 (Or.inl rfl),
    (migrate_token_gate Nat (TokenOutcome.resolved (TokenBody.mk (some "t")))
      (TokenOutcome.resolved (TokenBody.mk (some "u")))
      (Outcome.resolved []) (fun _ => []) (fun _ _ => true) 0).1 (by decide)⟩

end MigrateAsset
